import Mathlib

/-!
Verification of the Caffeine Chronicles frame-synthesis engine
(`video_renderer.py` together with `config.py`).

The embedding below translates the renderer's pure core into Lean:

* machine floats are modelled as exact rationals (`ℚ`) where the source only
  performs field operations, and as reals (`ℝ`) where transcendental
  functions (`math.sin`, `math.pi`) appear;
* Python exceptions and file-system effects are modelled with an explicit
  outcome record driven by an oracle describing which operations fail;
* the process-wide `random` generator is modelled as an abstract
  deterministic generator threaded in state-passing style.
-/

set_option linter.unusedVariables false

/- ── Configuration constants (src/config.py) ─────────────────────────── -/

/-- config.py line 35: `VIDEO_WIDTH = 1080`. -/
def VIDEO_WIDTH : ℤ := 1080

/-- config.py line 36: `VIDEO_HEIGHT = 1920`. -/
def VIDEO_HEIGHT : ℤ := 1920

/-- config.py line 37: `FPS = 30`. -/
def FPS : ℕ := 30

/-- config.py line 38: `VIDEO_DURATION_SECONDS = 35` (comment: total video length). -/
def VIDEO_DURATION_SECONDS : ℕ := 35

/-- Modelled from the spec: `SCENE_DURATION_SECONDS` is imported by
`video_renderer.py` from the configuration module but is not defined in
`src/config.py`; §8 scenario 1 of the specification fixes it at 12 seconds. -/
def SCENE_DURATION_SECONDS : ℚ := 12

/-- Modelled from the spec: `FADE_DURATION_SECONDS` is imported by
`video_renderer.py` from the configuration module but is not defined in
`src/config.py`; §8 scenario 1 of the specification fixes it at 1 second. -/
def FADE_DURATION_SECONDS : ℚ := 1

/-- Modelled from the spec: `FACTS_PER_VIDEO` is imported by
`video_renderer.py` from the configuration module but is not defined in
`src/config.py`; the specification (§8 scenario 1, and the renderer's module
docstring "3 scenes") fixes it at 3. -/
def FACTS_PER_VIDEO : ℤ := 3

/-- video_renderer.py line 337: `total_frames = FPS * VIDEO_DURATION_SECONDS`. -/
def total_frames : ℕ := FPS * VIDEO_DURATION_SECONDS

/- ── Scene timing (video_renderer.py lines 160-182) ───────────────────── -/

/-- The scene-timing parameters read by `get_scene_info`.  The source reads
them from module-level configuration constants; the embedding passes them
explicitly so that claims quantifying over configurations can be stated. -/
structure SceneCfg where
  fps : ℚ
  sceneDuration : ℚ
  fadeDuration : ℚ
  sceneCount : ℤ
deriving DecidableEq

/-- The configuration the repository actually runs with:
`FPS` and the three (spec-modelled) scene constants. -/
def defaultSceneCfg : SceneCfg :=
  { fps := (FPS : ℚ)
    sceneDuration := SCENE_DURATION_SECONDS
    fadeDuration := FADE_DURATION_SECONDS
    sceneCount := FACTS_PER_VIDEO }

/-- video_renderer.py lines 160-182, `get_scene_info`.
Returns `(scene_index, card_opacity, text_opacity)` for a frame number.
Python's `int(...)` truncates toward zero; its argument `t / S` is
non-negative for the `frame_num : ℕ` inputs of the render loop, where
truncation coincides with `Int.floor`. -/
def get_scene_info (cfg : SceneCfg) (frame_num : ℕ) : ℤ × ℚ × ℚ :=
  let t : ℚ := (frame_num : ℚ) / cfg.fps
  let scene_idx : ℤ := min ⌊t / cfg.sceneDuration⌋ (cfg.sceneCount - 1)
  let scene_start : ℚ := (scene_idx : ℚ) * cfg.sceneDuration
  let scene_t : ℚ := t - scene_start
  let fade : ℚ := cfg.fadeDuration
  let hold : ℚ := cfg.sceneDuration - 2 * fade
  if scene_t < fade then
    let progress := scene_t / fade
    let ease := 1 - (1 - progress) ^ 3
    (scene_idx, ease, ease)
  else if scene_t < fade + hold then
    (scene_idx, 1, 1)
  else
    let progress := (scene_t - fade - hold) / fade
    let ease := 1 - progress ^ 3
    (scene_idx, ease, ease)

/-- The three-window timing formula exactly as the specification words it
(§4.4 and claim C2): `scene_index = min(floor(t / S), scene_count - 1)`,
`scene_t = t - scene_index·S`; fade-in for `scene_t < F` with opacity
`1 - (1 - scene_t/F)^3`; hold for `F ≤ scene_t < F + (S - 2F)` with opacity
`1`; otherwise fade-out with opacity `1 - ((scene_t - F - hold)/F)^3`.
This definition follows the spec's words, to be compared with
`get_scene_info`, which is translated from the source. -/
def scene_info_spec (cfg : SceneCfg) (frame_num : ℕ) : ℤ × ℚ × ℚ :=
  let t : ℚ := (frame_num : ℚ) / cfg.fps
  let S : ℚ := cfg.sceneDuration
  let F : ℚ := cfg.fadeDuration
  let idx : ℤ := min ⌊t / S⌋ (cfg.sceneCount - 1)
  let scene_t : ℚ := t - (idx : ℚ) * S
  let hold : ℚ := S - 2 * F
  if scene_t < F then
    (idx, 1 - (1 - scene_t / F) ^ 3, 1 - (1 - scene_t / F) ^ 3)
  else if F ≤ scene_t ∧ scene_t < F + (S - 2 * F) then
    (idx, 1, 1)
  else
    (idx, 1 - ((scene_t - F - hold) / F) ^ 3, 1 - ((scene_t - F - hold) / F) ^ 3)

/-- video_renderer.py line 166: the scene index selected for a frame. -/
def scene_index (cfg : SceneCfg) (frame_num : ℕ) : ℤ :=
  (get_scene_info cfg frame_num).1

lemma get_scene_info_fst (cfg : SceneCfg) (f : ℕ) :
    (get_scene_info cfg f).1 =
      min ⌊(f : ℚ) / cfg.fps / cfg.sceneDuration⌋ (cfg.sceneCount - 1) := by
  simp only [get_scene_info]
  split_ifs <;> rfl

lemma cube_le_one {q : ℚ} (h0 : 0 ≤ q) (h1 : q ≤ 1) : q ^ 3 ≤ 1 := by
  nlinarith [sq_nonneg q]

lemma scene_index_mono (cfg : SceneCfg) (hfps : 0 < cfg.fps)
    (hS : 0 < cfg.sceneDuration) {f g : ℕ} (h : f ≤ g) :
    (get_scene_info cfg f).1 ≤ (get_scene_info cfg g).1 := by
  rw [get_scene_info_fst, get_scene_info_fst]
  refine min_le_min (Int.floor_mono ?_) le_rfl
  gcongr <;> exact_mod_cast h

lemma scene_index_saturates (cfg : SceneCfg) (hS : 0 < cfg.sceneDuration) {g : ℕ}
    (hg : (cfg.sceneCount : ℚ) * cfg.sceneDuration ≤ (g : ℚ) / cfg.fps) :
    (get_scene_info cfg g).1 = cfg.sceneCount - 1 := by
  rw [get_scene_info_fst]
  refine min_eq_right (Int.le_floor.mpr ?_)
  rw [le_div_iff hS]
  push_cast
  nlinarith

lemma scene_info_opacity_bounds (cfg : SceneCfg) (T f : ℕ)
    (hfps : 0 < cfg.fps) (hS : 0 < cfg.sceneDuration) (hF : 0 ≤ cfg.fadeDuration)
    (hcount : 1 ≤ cfg.sceneCount)
    (hT : (T : ℚ) ≤ cfg.fps * ((cfg.sceneCount : ℚ) * cfg.sceneDuration))
    (hf : f < T) :
    0 ≤ (get_scene_info cfg f).2.1 ∧ (get_scene_info cfg f).2.1 ≤ 1 ∧
    0 ≤ (get_scene_info cfg f).2.2 ∧ (get_scene_info cfg f).2.2 ≤ 1 := by
  simp only [get_scene_info]
  set t : ℚ := (f : ℚ) / cfg.fps with ht
  set idx : ℤ := min ⌊t / cfg.sceneDuration⌋ (cfg.sceneCount - 1) with hidx
  have h0t : 0 ≤ t := by positivity
  have hst0 : 0 ≤ t - (idx : ℚ) * cfg.sceneDuration := by
    have h1 : (idx : ℚ) ≤ t / cfg.sceneDuration := by
      calc (idx : ℚ) ≤ (⌊t / cfg.sceneDuration⌋ : ℚ) := by
            exact_mod_cast min_le_left _ _
        _ ≤ t / cfg.sceneDuration := Int.floor_le _
    nlinarith [(le_div_iff hS).mp h1]
  have hstS : t - (idx : ℚ) * cfg.sceneDuration < cfg.sceneDuration := by
    rcases le_or_lt (⌊t / cfg.sceneDuration⌋) (cfg.sceneCount - 1) with hc | hc
    · have hidx' : idx = ⌊t / cfg.sceneDuration⌋ := min_eq_left hc
      have h2 : t / cfg.sceneDuration < (⌊t / cfg.sceneDuration⌋ : ℚ) + 1 :=
        Int.lt_floor_add_one _
      rw [div_lt_iff hS] at h2
      rw [hidx']
      nlinarith
    · have hidx' : idx = cfg.sceneCount - 1 := min_eq_right hc.le
      have htT : t < (cfg.sceneCount : ℚ) * cfg.sceneDuration := by
        have h3 : t < (T : ℚ) / cfg.fps := by
          rw [ht]
          gcongr <;> exact_mod_cast hf
        have h4 : (T : ℚ) / cfg.fps ≤ (cfg.sceneCount : ℚ) * cfg.sceneDuration := by
          rw [div_le_iff hfps]
          nlinarith
        linarith
      rw [hidx']
      push_cast
      nlinarith
  split_ifs with h1 h2
  · -- fade-in window
    have hFpos : 0 < cfg.fadeDuration := lt_of_le_of_lt hst0 h1
    have hp0 : 0 ≤ (t - (idx : ℚ) * cfg.sceneDuration) / cfg.fadeDuration :=
      div_nonneg hst0 hFpos.le
    have hp1 : (t - (idx : ℚ) * cfg.sceneDuration) / cfg.fadeDuration < 1 :=
      (div_lt_one hFpos).mpr h1
    have hcube0 : 0 ≤ (1 - (t - (idx : ℚ) * cfg.sceneDuration) / cfg.fadeDuration) ^ 3 :=
      pow_nonneg (by linarith) 3
    have hcube1 : (1 - (t - (idx : ℚ) * cfg.sceneDuration) / cfg.fadeDuration) ^ 3 ≤ 1 :=
      cube_le_one (by linarith) (by linarith)
    refine ⟨by linarith, by linarith, by linarith, by linarith⟩
  · exact ⟨by norm_num, by norm_num, by norm_num, by norm_num⟩
  · -- fade-out window
    push_neg at h1 h2
    have hFpos : 0 < cfg.fadeDuration := by linarith
    have hp0 : 0 ≤ (t - (idx : ℚ) * cfg.sceneDuration - cfg.fadeDuration -
        (cfg.sceneDuration - 2 * cfg.fadeDuration)) / cfg.fadeDuration :=
      div_nonneg (by linarith) hFpos.le
    have hp1 : (t - (idx : ℚ) * cfg.sceneDuration - cfg.fadeDuration -
        (cfg.sceneDuration - 2 * cfg.fadeDuration)) / cfg.fadeDuration < 1 := by
      rw [div_lt_one hFpos]
      linarith
    have hcube0 : 0 ≤ ((t - (idx : ℚ) * cfg.sceneDuration - cfg.fadeDuration -
        (cfg.sceneDuration - 2 * cfg.fadeDuration)) / cfg.fadeDuration) ^ 3 :=
      pow_nonneg hp0 3
    have hcube1 : ((t - (idx : ℚ) * cfg.sceneDuration - cfg.fadeDuration -
        (cfg.sceneDuration - 2 * cfg.fadeDuration)) / cfg.fadeDuration) ^ 3 ≤ 1 :=
      cube_le_one hp0 hp1.le
    refine ⟨by linarith, by linarith, by linarith, by linarith⟩

/-- C1, amended.  For every configuration with positive frame rate and scene
duration, non-negative fade, `2×fade ≤ scene_duration`, at least one scene,
and a total frame count that does not exceed `fps × scene_count ×
scene_duration` (the shipped configuration satisfies this: 1050 ≤ 1080),
`get_scene_info` returns card and text opacities in `[0,1]` for every frame
below the total frame count; the scene index is monotonically non-decreasing
in the frame index, and saturates at `scene_count - 1` for any frame at or
beyond the last scene's window. -/
theorem c1_scene_timing_amended (cfg : SceneCfg) (T f m1 m2 g : ℕ)
    (hfps : 0 < cfg.fps) (hS : 0 < cfg.sceneDuration) (hF : 0 ≤ cfg.fadeDuration)
    (hfade : 2 * cfg.fadeDuration ≤ cfg.sceneDuration) (hcount : 1 ≤ cfg.sceneCount)
    (hT : (T : ℚ) ≤ cfg.fps * ((cfg.sceneCount : ℚ) * cfg.sceneDuration))
    (hf : f < T) (hm : m1 ≤ m2)
    (hg : (cfg.sceneCount : ℚ) * cfg.sceneDuration ≤ (g : ℚ) / cfg.fps) :
    (0 ≤ (get_scene_info cfg f).2.1 ∧ (get_scene_info cfg f).2.1 ≤ 1 ∧
     0 ≤ (get_scene_info cfg f).2.2 ∧ (get_scene_info cfg f).2.2 ≤ 1) ∧
    (get_scene_info cfg m1).1 ≤ (get_scene_info cfg m2).1 ∧
    (get_scene_info cfg g).1 = cfg.sceneCount - 1 :=
  ⟨scene_info_opacity_bounds cfg T f hfps hS hF hcount hT hf,
   scene_index_mono cfg hfps hS hm,
   scene_index_saturates cfg hS hg⟩

/-- Witness for C1: the amended theorem applied at the repository's
configuration, with frame 500 for the bounds, the pair 100 ≤ 700 for
monotonicity, and frame 1100 (past the 36 s scene schedule) for saturation. -/
theorem c1_scene_timing_witness :
    (500 < total_frames ∧
     (total_frames : ℚ) ≤ defaultSceneCfg.fps *
       ((defaultSceneCfg.sceneCount : ℚ) * defaultSceneCfg.sceneDuration)) ∧
    ((0 ≤ (get_scene_info defaultSceneCfg 500).2.1 ∧
      (get_scene_info defaultSceneCfg 500).2.1 ≤ 1 ∧
      0 ≤ (get_scene_info defaultSceneCfg 500).2.2 ∧
      (get_scene_info defaultSceneCfg 500).2.2 ≤ 1) ∧
     (get_scene_info defaultSceneCfg 100).1 ≤ (get_scene_info defaultSceneCfg 700).1 ∧
     (get_scene_info defaultSceneCfg 1100).1 = defaultSceneCfg.sceneCount - 1) :=
  ⟨⟨by norm_num [total_frames, FPS, VIDEO_DURATION_SECONDS],
    by norm_num [total_frames, FPS, VIDEO_DURATION_SECONDS, defaultSceneCfg,
      SCENE_DURATION_SECONDS, FACTS_PER_VIDEO]⟩,
   c1_scene_timing_amended defaultSceneCfg total_frames 500 100 700 1100
     (by norm_num [defaultSceneCfg, FPS])
     (by norm_num [defaultSceneCfg, SCENE_DURATION_SECONDS])
     (by norm_num [defaultSceneCfg, FADE_DURATION_SECONDS])
     (by norm_num [defaultSceneCfg, FADE_DURATION_SECONDS, SCENE_DURATION_SECONDS])
     (by norm_num [defaultSceneCfg, FACTS_PER_VIDEO])
     (by norm_num [total_frames, FPS, VIDEO_DURATION_SECONDS, defaultSceneCfg,
        SCENE_DURATION_SECONDS, FACTS_PER_VIDEO])
     (by norm_num [total_frames, FPS, VIDEO_DURATION_SECONDS])
     (by norm_num)
     (by norm_num [defaultSceneCfg, FPS, SCENE_DURATION_SECONDS, FACTS_PER_VIDEO])⟩

/-- C1 counterexample.  The render configuration of §3 includes the total
video duration as a datum independent of the scene schedule, and
`render_video` computes `total_frames = FPS × VIDEO_DURATION_SECONDS`.
With fps 30, scene duration 12, fade 1 (so `2×fade ≤ scene_duration` holds),
3 scenes and a 40-second total duration, frame 1110 lies below
`total_frames = 1200`, yet `get_scene_info` returns card opacity −7,
outside `[0,1]`: past the nominal 36 s schedule the clamped last scene's
fade-out cubic keeps falling below zero. -/
theorem c1_counterexample :
    2 * FADE_DURATION_SECONDS ≤ SCENE_DURATION_SECONDS ∧
    (1110 : ℕ) < 30 * 40 ∧
    (get_scene_info
      { fps := 30, sceneDuration := SCENE_DURATION_SECONDS,
        fadeDuration := FADE_DURATION_SECONDS, sceneCount := FACTS_PER_VIDEO }
      1110).2.1 < 0 := by
  refine ⟨by norm_num [FADE_DURATION_SECONDS, SCENE_DURATION_SECONDS], by norm_num, ?_⟩
  norm_num [get_scene_info, SCENE_DURATION_SECONDS, FADE_DURATION_SECONDS,
    FACTS_PER_VIDEO]

/-- C2: `get_scene_info` implements the three-window timing formula exactly
as the specification states it (`scene_info_spec`); in particular
`scene_info(0) = (0, 0.0, 0.0)` at the repository configuration, and the
card opacity equals the text opacity at every frame. -/
theorem c2_scene_info_formula :
    (∀ (cfg : SceneCfg) (f : ℕ), get_scene_info cfg f = scene_info_spec cfg f) ∧
    get_scene_info defaultSceneCfg 0 = (0, 0, 0) ∧
    (∀ (cfg : SceneCfg) (f : ℕ),
      (get_scene_info cfg f).2.1 = (get_scene_info cfg f).2.2) := by
  have key : ∀ (st F X : ℚ) (a b c : ℤ × ℚ × ℚ),
      (if st < F then a else if st < X then b else c) =
      (if st < F then a else if F ≤ st ∧ st < X then b else c) := by
    intro st F X a b c
    by_cases h1 : st < F
    · simp [h1]
    · simp [h1, not_lt.mp h1]
  refine ⟨?_, ?_, ?_⟩
  · intro cfg f
    simp only [get_scene_info, scene_info_spec]
    exact key _ _ _ _ _ _
  · norm_num [get_scene_info, defaultSceneCfg, FPS, SCENE_DURATION_SECONDS,
      FADE_DURATION_SECONDS, FACTS_PER_VIDEO]
  · intro cfg f
    simp only [get_scene_info]
    split_ifs <;> rfl

/-- C6 counterexample.  `render_video` computes the total frame count as
`FPS * VIDEO_DURATION_SECONDS = 30 × 35 = 1050`; this differs from the
claimed `fps × (scenes × scene_duration) = 30 × 36 = 1080`, because the
configured 35-second total duration is one second short of the 3 × 12 s
scene schedule. -/
theorem c6_counterexample :
    (total_frames : ℚ) ≠ (FPS : ℚ) * ((FACTS_PER_VIDEO : ℚ) * SCENE_DURATION_SECONDS) := by
  norm_num [total_frames, FPS, VIDEO_DURATION_SECONDS, FACTS_PER_VIDEO,
    SCENE_DURATION_SECONDS]

/-- C6, amended.  Under the shipped configuration the render produces
`total_frames = FPS × VIDEO_DURATION_SECONDS = 30 × 35 = 1050` frames,
independent of the number of caption strings; this is not
`fps × scenes × scene_duration = 1080`. -/
theorem c6_total_frames_amended :
    total_frames = FPS * VIDEO_DURATION_SECONDS ∧ total_frames = 1050 :=
  ⟨rfl, rfl⟩

/- ── Text wrapping (video_renderer.py lines 140-156) ──────────────────── -/

/-- Python's `str.split()` with no arguments, over the `List Char` model of
strings: the maximal runs of non-whitespace characters, in order, with no
empty pieces. -/
def splitWords : List Char → List (List Char)
  | [] => []
  | c :: s =>
    if c.isWhitespace then splitWords s
    else
      match s with
      | [] => [[c]]
      | d :: _ =>
        if d.isWhitespace then [c] :: splitWords s
        else
          match splitWords s with
          | [] => [[c]]
          | w :: ws => (c :: w) :: ws

/-- A piece produced by `str.split()`: non-empty and whitespace-free. -/
def goodWord (w : List Char) : Prop :=
  w ≠ [] ∧ ∀ c ∈ w, ¬ c.isWhitespace

instance : DecidablePred goodWord := fun w => by
  unfold goodWord; infer_instance

/-- video_renderer.py line 145: `test = f"{current_line} {word}".strip()`.
The accumulating line is built from whitespace-free words joined by single
spaces, so it never has leading or trailing whitespace of its own and the
strip only matters when the current line is empty, where it yields the bare
word. -/
def joinWord (cur w : List Char) : List Char :=
  if cur = [] then w else cur ++ ' ' :: w

/-- The word loop of `wrap_text` (video_renderer.py lines 144-155), with the
trailing partial line committed (lines 154-155). -/
def wrapAux (measure : List Char → ℤ) (maxW : ℤ) :
    List (List Char) → List Char → List (List Char)
  | [], cur => if cur = [] then [] else [cur]
  | w :: ws, cur =>
    let test := joinWord cur w
    if measure test ≤ maxW then wrapAux measure maxW ws test
    else if cur = [] then wrapAux measure maxW ws w
    else cur :: wrapAux measure maxW ws w

/-- video_renderer.py lines 140-156, `wrap_text`.  `measure` models the
rendered-width query `font.getbbox(test)[2] - font.getbbox(test)[0]`. -/
def wrap_text (measure : List Char → ℤ) (maxW : ℤ) (text : List Char) :
    List (List Char) :=
  wrapAux measure maxW (splitWords text) []

/-- The words of the current line, joined by single spaces: the shape every
value of `current_line` has during the loop. -/
def joinWords : List (List Char) → List Char
  | [] => []
  | [w] => w
  | w :: ws => w ++ ' ' :: joinWords ws

lemma splitWords_cons (c : Char) (s : List Char) :
    splitWords (c :: s) =
      if c.isWhitespace then splitWords s
      else
        match s with
        | [] => [[c]]
        | d :: _ =>
          if d.isWhitespace then [c] :: splitWords s
          else
            match splitWords s with
            | [] => [[c]]
            | w :: ws => (c :: w) :: ws := rfl

lemma splitWords_white_cons {c : Char} (hc : c.isWhitespace) (s : List Char) :
    splitWords (c :: s) = splitWords s := by
  rw [splitWords_cons, if_pos hc]

lemma splitWords_one_nonwhite {c : Char} (hc : ¬ c.isWhitespace) :
    splitWords [c] = [[c]] := by
  rw [splitWords_cons, if_neg hc]

lemma splitWords_two_white {c d : Char} (hc : ¬ c.isWhitespace)
    (hd : d.isWhitespace) (s : List Char) :
    splitWords (c :: d :: s) = [c] :: splitWords (d :: s) := by
  rw [splitWords_cons, if_neg hc]
  simp only [if_pos hd]

lemma splitWords_two_nonwhite {c d : Char} (hc : ¬ c.isWhitespace)
    (hd : ¬ d.isWhitespace) (s : List Char) :
    splitWords (c :: d :: s) =
      match splitWords (d :: s) with
      | [] => [[c]]
      | w :: ws => (c :: w) :: ws := by
  rw [splitWords_cons, if_neg hc]
  simp only [if_neg hd]

lemma splitWords_good : ∀ (s : List Char), ∀ w ∈ splitWords s, goodWord w := by
  intro s
  induction s with
  | nil => intro w hw; simp [splitWords] at hw
  | cons c s ih =>
    intro w hw
    by_cases hc : c.isWhitespace
    · rw [splitWords_white_cons hc] at hw
      exact ih w hw
    · cases s with
      | nil =>
        rw [splitWords_one_nonwhite hc, List.mem_singleton] at hw
        subst hw
        exact ⟨by simp, by simpa using hc⟩
      | cons d s' =>
        by_cases hd : d.isWhitespace
        · rw [splitWords_two_white hc hd] at hw
          rcases List.mem_cons.mp hw with hw | hw
          · subst hw
            exact ⟨by simp, by simpa using hc⟩
          · exact ih w hw
        · rw [splitWords_two_nonwhite hc hd] at hw
          cases hsw : splitWords (d :: s') with
          | nil =>
            rw [hsw] at hw
            simp only [List.mem_singleton] at hw
            subst hw
            exact ⟨by simp, by simpa using hc⟩
          | cons w0 ws0 =>
            rw [hsw] at hw
            simp only [List.mem_cons] at hw
            rcases hw with hw | hw
            · subst hw
              have h0 : goodWord w0 := ih w0 (by rw [hsw]; exact List.mem_cons_self _ _)
              refine ⟨by simp, ?_⟩
              intro x hx
              rcases List.mem_cons.mp hx with hx | hx
              · subst hx; simpa using hc
              · exact h0.2 x hx
            · exact ih w (by rw [hsw]; exact List.mem_cons_of_mem _ hw)

lemma splitWords_single : ∀ {w : List Char}, goodWord w → splitWords w = [w] := by
  intro w
  induction w with
  | nil => intro h; exact absurd rfl h.1
  | cons c w' ih =>
    intro h
    have hc : ¬ c.isWhitespace := h.2 c (List.mem_cons_self _ _)
    cases w' with
    | nil => exact splitWords_one_nonwhite hc
    | cons d w'' =>
      have hd : ¬ d.isWhitespace := h.2 d (by simp)
      have hgood : goodWord (d :: w'') :=
        ⟨by simp, fun x hx => h.2 x (List.mem_cons_of_mem _ hx)⟩
      rw [splitWords_two_nonwhite hc hd, ih hgood]

lemma splitWords_append_space :
    ∀ {w : List Char}, goodWord w → ∀ (r : List Char),
      splitWords (w ++ ' ' :: r) = w :: splitWords r := by
  intro w
  induction w with
  | nil => intro h; exact absurd rfl h.1
  | cons c w' ih =>
    intro h r
    have hc : ¬ c.isWhitespace := h.2 c (List.mem_cons_self _ _)
    cases w' with
    | nil =>
      have hsp : (' ' : Char).isWhitespace := by decide
      show splitWords (c :: ' ' :: r) = [c] :: splitWords r
      rw [splitWords_two_white hc hsp r, splitWords_white_cons hsp r]
    | cons d w'' =>
      have hd : ¬ d.isWhitespace := h.2 d (by simp)
      have hgood : goodWord (d :: w'') :=
        ⟨by simp, fun x hx => h.2 x (List.mem_cons_of_mem _ hx)⟩
      have hih := ih hgood r
      rw [List.cons_append] at hih
      show splitWords (c :: d :: (w'' ++ ' ' :: r)) = (c :: d :: w'') :: splitWords r
      rw [splitWords_two_nonwhite hc hd, hih]

lemma joinWords_eq_nil :
    ∀ {curW : List (List Char)}, (∀ w ∈ curW, goodWord w) →
      (joinWords curW = [] ↔ curW = []) := by
  intro curW h
  cases curW with
  | nil => simp [joinWords]
  | cons u rest =>
    cases rest with
    | nil =>
      have : u ≠ [] := (h u (by simp)).1
      simp [joinWords, this]
    | cons v rest' => simp [joinWords]

lemma joinWords_cons (u : List Char) (ws : List (List Char)) (h : ws ≠ []) :
    joinWords (u :: ws) = u ++ ' ' :: joinWords ws := by
  cases ws with
  | nil => exact absurd rfl h
  | cons v rest => rfl

lemma joinWord_joinWords :
    ∀ (curW : List (List Char)), (∀ w ∈ curW, goodWord w) → ∀ (w : List Char),
      joinWord (joinWords curW) w = joinWords (curW ++ [w]) := by
  intro curW
  induction curW with
  | nil => intro _ w; simp [joinWord, joinWords]
  | cons u rest ih =>
    intro h w
    cases rest with
    | nil =>
      have hu : u ≠ [] := (h u (by simp)).1
      simp [joinWord, joinWords, hu]
    | cons v rest' =>
      have hgood' : ∀ x ∈ v :: rest', goodWord x :=
        fun x hx => h x (List.mem_cons_of_mem _ hx)
      have hjne : joinWords (v :: rest') ≠ [] := by
        intro hnil
        exact absurd ((joinWords_eq_nil hgood').mp hnil) (by simp)
      rw [joinWords_cons u (v :: rest') (by simp), List.cons_append,
        joinWords_cons u ((v :: rest') ++ [w]) (by simp), ← ih hgood' w]
      rw [joinWord, joinWord, if_neg hjne,
        if_neg (by simp : ¬ u ++ ' ' :: joinWords (v :: rest') = [])]
      simp

lemma splitWords_joinWords :
    ∀ {curW : List (List Char)}, curW ≠ [] → (∀ w ∈ curW, goodWord w) →
      splitWords (joinWords curW) = curW := by
  intro curW
  induction curW with
  | nil => intro h; exact absurd rfl h
  | cons u rest ih =>
    intro _ h
    cases rest with
    | nil => simp [joinWords, splitWords_single (h u (by simp))]
    | cons v rest' =>
      rw [joinWords_cons u _ (by simp),
        splitWords_append_space (h u (by simp)),
        ih (by simp) (fun x hx => h x (List.mem_cons_of_mem _ hx))]

lemma wrapAux_flat (measure : List Char → ℤ) (maxW : ℤ) :
    ∀ (ws : List (List Char)) (curW : List (List Char)),
      (∀ w ∈ ws, goodWord w) → (∀ w ∈ curW, goodWord w) →
      (wrapAux measure maxW ws (joinWords curW)).flatMap splitWords = curW ++ ws := by
  intro ws
  induction ws with
  | nil =>
    intro curW _ hcur
    cases hc : curW with
    | nil => simp [wrapAux, joinWords]
    | cons u rest =>
      subst hc
      have hne : joinWords (u :: rest) ≠ [] := by
        intro hnil
        exact absurd ((joinWords_eq_nil hcur).mp hnil) (by simp)
      simp only [wrapAux, if_neg hne, List.flatMap_cons, List.flatMap_nil,
        List.append_nil]
      rw [splitWords_joinWords (by simp) hcur]
  | cons w ws ih =>
    intro curW hws hcur
    have hw : goodWord w := hws w (by simp)
    have hws' : ∀ x ∈ ws, goodWord x := fun x hx => hws x (List.mem_cons_of_mem _ hx)
    simp only [wrapAux, joinWord_joinWords curW hcur w]
    split_ifs with h1 h2
    · have hgood : ∀ x ∈ curW ++ [w], goodWord x := by
        intro x hx
        rcases List.mem_append.mp hx with hx | hx
        · exact hcur x hx
        · rw [List.mem_singleton.mp hx]; exact hw
      rw [ih (curW ++ [w]) hws' hgood]
      simp
    · have hcurnil : curW = [] := (joinWords_eq_nil hcur).mp h2
      subst hcurnil
      have hw1 := ih [w] hws' (by intro x hx; rw [List.mem_singleton.mp hx]; exact hw)
      rw [show joinWords [w] = w from rfl] at hw1
      simpa using hw1
    · have hcurne : curW ≠ [] := by
        intro hnil
        exact h2 (by rw [hnil]; rfl)
      have hw1 := ih [w] hws' (by intro x hx; rw [List.mem_singleton.mp hx]; exact hw)
      rw [show joinWords [w] = w from rfl] at hw1
      simp only [List.flatMap_cons]
      rw [splitWords_joinWords hcurne hcur, hw1]
      simp

lemma wrapAux_width (measure : List Char → ℤ) (maxW : ℤ)
    (allW : List (List Char)) :
    ∀ (ws : List (List Char)) (cur : List Char),
      (cur = [] ∨ measure cur ≤ maxW ∨ cur ∈ allW) →
      (∀ w ∈ ws, w ∈ allW) →
      ∀ l ∈ wrapAux measure maxW ws cur, measure l ≤ maxW ∨ l ∈ allW := by
  intro ws
  induction ws with
  | nil =>
    intro cur hcur _ l hl
    by_cases hc : cur = []
    · simp [wrapAux, hc] at hl
    · simp only [wrapAux, if_neg hc, List.mem_singleton] at hl
      subst hl
      rcases hcur with h | h | h
      · exact absurd h hc
      · exact Or.inl h
      · exact Or.inr h
  | cons w ws ih =>
    intro cur hcur hws l hl
    have hwall : w ∈ allW := hws w (by simp)
    have hws' : ∀ x ∈ ws, x ∈ allW := fun x hx => hws x (List.mem_cons_of_mem _ hx)
    simp only [wrapAux] at hl
    split_ifs at hl with h1 h2
    · exact ih _ (Or.inr (Or.inl h1)) hws' l hl
    · exact ih _ (Or.inr (Or.inr hwall)) hws' l hl
    · rcases List.mem_cons.mp hl with hl | hl
      · subst hl
        rcases hcur with h | h | h
        · exact absurd h h2
        · exact Or.inl h
        · exact Or.inr h
      · exact ih _ (Or.inr (Or.inr hwall)) hws' l hl

/-- C3: every line returned by `wrap_text` either fits within `maxW` under
the supplied width measure, or is a single whitespace-delimited word of the
input, placed alone on its line unmodified (the only lines wider than
`maxW` are such single words; no hyphenation or mid-word breaking exists). -/
theorem c3_wrap_width (measure : List Char → ℤ) (maxW : ℤ) (text : List Char) :
    ∀ l ∈ wrap_text measure maxW text,
      measure l ≤ maxW ∨ (maxW < measure l ∧ l ∈ splitWords text) := by
  intro l hl
  have h := wrapAux_width measure maxW (splitWords text) (splitWords text) []
    (Or.inl rfl) (fun _ hw => hw) l hl
  rcases h with h | h
  · exact Or.inl h
  · rcases le_or_lt (measure l) maxW with hle | hlt
    · exact Or.inl hle
    · exact Or.inr ⟨hlt, h⟩

/-- Witness for C3: wrapping `"ab c"` at width 1 with the length measure
produces the line `"ab"`, wider than 1 and equal to an input word. -/
theorem c3_wrap_width_witness :
    (('a' :: 'b' :: []) ∈
        wrap_text (fun l => (l.length : ℤ)) 1 ('a' :: 'b' :: ' ' :: 'c' :: [])) ∧
    ((fun (l : List Char) => (l.length : ℤ)) ('a' :: 'b' :: []) ≤ 1 ∨
      (1 < (fun (l : List Char) => (l.length : ℤ)) ('a' :: 'b' :: []) ∧
        ('a' :: 'b' :: []) ∈ splitWords ('a' :: 'b' :: ' ' :: 'c' :: []))) :=
  ⟨by decide,
   c3_wrap_width (fun l => (l.length : ℤ)) 1 ('a' :: 'b' :: ' ' :: 'c' :: [])
     ('a' :: 'b' :: []) (by decide)⟩

/-- C4: the sequence of whitespace-delimited words across the lines returned
by `wrap_text`, in order, equals the sequence of whitespace-delimited words
of the input text — no word is dropped, duplicated or reordered, so joining
the lines with single spaces and collapsing whitespace reproduces the
input's word sequence. -/
theorem c4_wrap_roundtrip (measure : List Char → ℤ) (maxW : ℤ) (text : List Char) :
    (wrap_text measure maxW text).flatMap splitWords = splitWords text := by
  have h := wrapAux_flat measure maxW (splitWords text) []
    (splitWords_good text) (by intro w hw; simp at hw)
  simpa [wrap_text, joinWords] using h

/- ── Particle systems (video_renderer.py lines 60-119) ─────────────────── -/

/-- config-level bean tones, video_renderer.py lines 39-40. -/
def BEAN_COLOR : ℤ × ℤ × ℤ := (101, 67, 33)

def BEAN_COLOR_LIGHT : ℤ × ℤ × ℤ := (139, 90, 43)

/-- video_renderer.py lines 99-109: the fields a `Sparkle` holds after
construction.  `x` and `y` come from `random.randint` (integers); the
float-valued fields are modelled as reals. -/
structure Sparkle where
  x : ℤ
  y : ℤ
  size : ℝ
  phase : ℝ
  speed : ℝ
  drift_x : ℝ
  drift_y : ℝ
  color : ℤ × ℤ × ℤ

/-- video_renderer.py lines 60-67: the fields a `CoffeeBean` holds after
construction. -/
structure CoffeeBean where
  x : ℤ
  y : ℤ
  size : ℝ
  angle : ℝ
  shade : ℤ × ℤ × ℤ
  opacity : ℤ

/-- Python's float `%` with a positive right operand:
`x % y = x - y·⌊x/y⌋`, always in `[0, y)`. -/
noncomputable def fmod (x y : ℝ) : ℝ := x - y * ⌊x / y⌋

/-- video_renderer.py lines 111-113, `Sparkle.get_opacity`:
`max(0, min(1, 0.5 + 0.5·sin(speed·t + phase)))` with `t = frame / FPS`. -/
noncomputable def Sparkle.get_opacity (s : Sparkle) (frame : ℕ) : ℝ :=
  max 0 (min 1 (0.5 + 0.5 * Real.sin (s.speed * ((frame : ℝ) / (FPS : ℝ)) + s.phase)))

/-- video_renderer.py lines 115-119, `Sparkle.get_pos`:
`((x + drift_x·t·30) % width, (y + drift_y·t·30) % height)`. -/
noncomputable def Sparkle.get_pos (s : Sparkle) (frame : ℕ) : ℝ × ℝ :=
  let t : ℝ := (frame : ℝ) / (FPS : ℝ)
  (fmod ((s.x : ℝ) + s.drift_x * t * 30) (VIDEO_WIDTH : ℝ),
   fmod ((s.y : ℝ) + s.drift_y * t * 30) (VIDEO_HEIGHT : ℝ))

/-- A deterministic model of the process-wide `random` module: a state
type, a `seed` operation that replaces the whole state, and the
primitives the particle constructors call.  `choice2` models
`random.choice` applied to a two-element list (`true` picks the first
element). -/
structure RNG (σ : Type) where
  seed : ℤ → σ
  randint : σ → ℤ → ℤ → ℤ × σ
  uniform : σ → ℝ → ℝ → ℝ × σ
  choice2 : σ → Bool × σ

/-- video_renderer.py lines 100-109, `Sparkle.__init__`, with the random
draws threaded through the generator state in source order.  The colour is
`(brightness, int(brightness·0.85), 0)`; for the non-negative brightness
the `int` truncation is `⌊17·b/20⌋`. -/
noncomputable def mkSparkle {σ : Type} (R : RNG σ) (g0 : σ) : Sparkle × σ :=
  let px := R.randint g0 0 VIDEO_WIDTH
  let py := R.randint px.2 0 VIDEO_HEIGHT
  let psize := R.uniform py.2 2 6
  let pphase := R.uniform psize.2 0 (2 * Real.pi)
  let pspeed := R.uniform pphase.2 1.5 4
  let pdx := R.uniform pspeed.2 (-0.3) 0.3
  let pdy := R.uniform pdx.2 (-0.8) (-0.2)
  let pb := R.randint pdy.2 180 255
  (⟨px.1, py.1, psize.1, pphase.1, pspeed.1, pdx.1, pdy.1,
    (pb.1, ⌊(17 * pb.1 : ℚ) / 20⌋, 0)⟩, pb.2)

/-- video_renderer.py lines 61-67, `CoffeeBean.__init__`, with the random
draws threaded through the generator state in source order. -/
noncomputable def mkCoffeeBean {σ : Type} (R : RNG σ) (g0 : σ) : CoffeeBean × σ :=
  let px := R.randint g0 (-20) (VIDEO_WIDTH + 20)
  let py := R.randint px.2 (-20) (VIDEO_HEIGHT + 20)
  let psize := R.uniform py.2 18 40
  let pangle := R.uniform psize.2 0 360
  let pshade := R.choice2 pangle.2
  let pop := R.randint pshade.2 25 55
  (⟨px.1, py.1, psize.1, pangle.1,
    if pshade.1 then BEAN_COLOR else BEAN_COLOR_LIGHT, pop.1⟩, pop.2)

/-- A list comprehension `[ctor() for _ in range(n)]` over the threaded
generator state. -/
def mkListRNG {σ α : Type} (step : σ → α × σ) : ℕ → σ → List α × σ
  | 0, g => ([], g)
  | n + 1, g =>
    let p := step g
    let rest := mkListRNG step n p.2
    (p.1 :: rest.1, rest.2)

/-- video_renderer.py lines 343-345: `random.seed(episode)` followed by the
construction of 60 sparkles and then 35 beans.  `ambient` is whatever state
the process-wide generator had when `render_video` was entered; the `seed`
call replaces it before any particle is constructed. -/
noncomputable def render_particles {σ : Type} (R : RNG σ) (ambient : σ)
    (episode : ℤ) : List Sparkle × List CoffeeBean :=
  let g0 := R.seed episode
  let sp := mkListRNG (mkSparkle R) 60 g0
  let bn := mkListRNG (mkCoffeeBean R) 35 sp.2
  (sp.1, bn.1)

/-- C5: two render invocations with the same episode number — whatever
generator state each inherited — construct identical `Sparkle` and
`CoffeeBean` collections, because all randomness is seeded from the episode
number before any particle is constructed; consequently the per-frame
sparkle position and opacity sequences of the two renders are identical at
every frame index. -/
theorem c5_render_determinism {σ : Type} (R : RNG σ) (g g' : σ) (episode : ℤ) :
    render_particles R g episode = render_particles R g' episode ∧
    (∀ frame : ℕ,
      (render_particles R g episode).1.map (fun s => s.get_pos frame) =
        (render_particles R g' episode).1.map (fun s => s.get_pos frame) ∧
      (render_particles R g episode).1.map (fun s => s.get_opacity frame) =
        (render_particles R g' episode).1.map (fun s => s.get_opacity frame)) :=
  ⟨rfl, fun _ => ⟨rfl, rfl⟩⟩

/-- Python's `random.randint(a, b)` returns an integer in the inclusive
range `[a, b]` — both endpoints are attainable. -/
def randint_range (a b : ℤ) : Set ℤ := Set.Icc a b

/-- The initial positions `Sparkle.__init__` can produce
(video_renderer.py lines 101-102): `x = random.randint(0, VIDEO_WIDTH)`,
`y = random.randint(0, VIDEO_HEIGHT)`, all bounds inclusive. -/
def sparkle_init_range : Set (ℤ × ℤ) :=
  (randint_range 0 VIDEO_WIDTH) ×ˢ (randint_range 0 VIDEO_HEIGHT)

lemma fmod_of_lt {x y : ℝ} (h0 : 0 ≤ x) (h1 : x < y) : fmod x y = x := by
  have hy : 0 < y := lt_of_le_of_lt h0 h1
  have hfloor : ⌊x / y⌋ = 0 := by
    rw [Int.floor_eq_zero_iff]
    exact ⟨div_nonneg h0 hy.le, (div_lt_one hy).mpr h1⟩
  simp [fmod, hfloor]

/-- C7, amended.  A `Sparkle` with `phase = 0`, `speed = 2`, zero drift, at
frame 0 with the configured 30 fps has opacity `0.5 + 0.5·sin 0 = 0.5`, and
`get_pos` returns the initial `(x0, y0)` for every constructor-producible
initial position except the inclusive upper corner: the amendment restricts
to `x0 < width` and `y0 < height`, since at `x0 = width` (or `y0 = height`),
which `random.randint` can produce, the modulo wraps the position to 0. -/
theorem c7_sparkle_scenario_amended (x0 y0 : ℤ) (size : ℝ) (col : ℤ × ℤ × ℤ)
    (hmem : (x0, y0) ∈ sparkle_init_range)
    (hx : x0 < VIDEO_WIDTH) (hy : y0 < VIDEO_HEIGHT) :
    (Sparkle.mk x0 y0 size 0 2 0 0 col).get_opacity 0 = 0.5 + 0.5 * Real.sin 0 ∧
    (Sparkle.mk x0 y0 size 0 2 0 0 col).get_opacity 0 = 0.5 ∧
    (Sparkle.mk x0 y0 size 0 2 0 0 col).get_pos 0 = ((x0 : ℝ), (y0 : ℝ)) := by
  obtain ⟨hxr, hyr⟩ := hmem
  rw [randint_range, Set.mem_Icc] at hxr hyr
  have hx0 : (0 : ℝ) ≤ (x0 : ℝ) := by exact_mod_cast hxr.1
  have hx1 : (x0 : ℝ) < ((VIDEO_WIDTH : ℤ) : ℝ) := by exact_mod_cast hx
  have hy0 : (0 : ℝ) ≤ (y0 : ℝ) := by exact_mod_cast hyr.1
  have hy1 : (y0 : ℝ) < ((VIDEO_HEIGHT : ℤ) : ℝ) := by exact_mod_cast hy
  refine ⟨?_, ?_, ?_⟩
  · simp [Sparkle.get_opacity]
    norm_num
  · simp [Sparkle.get_opacity]
    norm_num
  · simp only [Sparkle.get_pos]
    norm_num
    rw [fmod_of_lt hx0 hx1, fmod_of_lt hy0 hy1]
    exact ⟨rfl, rfl⟩

/-- Witness for C7: the amended theorem applied at the interior initial
position `(5, 7)`. -/
theorem c7_sparkle_scenario_witness :
    (((5 : ℤ), (7 : ℤ)) ∈ sparkle_init_range) ∧
    (Sparkle.mk 5 7 1 0 2 0 0 (255, 216, 0)).get_opacity 0 = 0.5 ∧
    (Sparkle.mk 5 7 1 0 2 0 0 (255, 216, 0)).get_pos 0 =
      (((5 : ℤ) : ℝ), ((7 : ℤ) : ℝ)) := by
  have hmem : (((5 : ℤ), (7 : ℤ)) ∈ sparkle_init_range) := by
    refine Set.mem_prod.mpr ⟨?_, ?_⟩ <;>
      simp [randint_range, Set.mem_Icc, VIDEO_WIDTH, VIDEO_HEIGHT] <;> norm_num
  have h := c7_sparkle_scenario_amended 5 7 1 (255, 216, 0) hmem
    (by norm_num [VIDEO_WIDTH]) (by norm_num [VIDEO_HEIGHT])
  exact ⟨hmem, h.2.1, h.2.2⟩

/-- C7 counterexample.  `random.randint(0, VIDEO_WIDTH)` is inclusive, so
the constructor can produce the initial position `x0 = 1080`; there, even
with zero drift, `get_pos` at frame 0 returns `(0, 0)` — the `% 1080` wraps
the inclusive right edge to the left edge — so the position is not
"unchanged from the initial (x0, y0)" for every constructor-producible
initial position. -/
theorem c7_counterexample :
    ((VIDEO_WIDTH, (0 : ℤ)) ∈ sparkle_init_range) ∧
    (Sparkle.mk VIDEO_WIDTH 0 1 0 2 0 0 (255, 216, 0)).get_pos 0 = ((0 : ℝ), (0 : ℝ)) ∧
    (Sparkle.mk VIDEO_WIDTH 0 1 0 2 0 0 (255, 216, 0)).get_pos 0 ≠
      (((VIDEO_WIDTH : ℤ) : ℝ), (0 : ℝ)) := by
  have hpos : (Sparkle.mk VIDEO_WIDTH 0 1 0 2 0 0 (255, 216, 0)).get_pos 0 =
      ((0 : ℝ), (0 : ℝ)) := by
    simp only [Sparkle.get_pos, fmod]
    norm_num [VIDEO_WIDTH, VIDEO_HEIGHT, FPS]
  refine ⟨?_, hpos, ?_⟩
  · refine Set.mem_prod.mpr ⟨?_, ?_⟩ <;>
      simp [randint_range, Set.mem_Icc, VIDEO_WIDTH, VIDEO_HEIGHT]
  · rw [hpos]
    intro hcontra
    have h1 := congrArg Prod.fst hcontra
    norm_num [VIDEO_WIDTH] at h1

/- ── Render pipeline effects (video_renderer.py lines 335-391) ─────────── -/

/-- The failures `render_video` can hit: resource errors (directory setup,
frame writes) and encoder errors (FFmpeg non-zero exit).  There is no
configuration variant because the source raises none. -/
inductive RenderError where
  | resource
  | encode
deriving DecidableEq

/-- An oracle describing which of the render's external operations fail:
whether the stale frames directory exists, whether `shutil.rmtree` /
`Path.mkdir` raise, which frame writes raise, and whether FFmpeg exits
non-zero. -/
structure FSModel where
  framesDirExists : Bool
  rmtreeFails : Bool
  mkdirFails : Bool
  saveFails : ℕ → Bool
  ffmpegFails : Bool

/-- What one `render_video` invocation did: how many frames were written,
whether the output video file was produced, and the first error raised. -/
structure RenderOutcome where
  framesWritten : ℕ
  videoCreated : Bool
  result : Option RenderError
deriving DecidableEq

/-- video_renderer.py lines 335-391, `render_video`, as a function of the
failure oracle.  The source raises the first exception it meets (`some …`
in `result`): clearing a stale frames directory (lines 339-340) or creating
it (line 341) aborts before any frame is composited; a failing `img.save`
at frame `k` (line 353) aborts with only frames `0..k-1` written; FFmpeg
runs only after the whole loop (line 387), so no output video file exists
on any earlier failure.  The scene configuration is passed through exactly
as in the source: it is never validated and influences pixel content
only. -/
def render_video_model (cfg : SceneCfg) (fs : FSModel) (totalFrames : ℕ) :
    RenderOutcome :=
  if fs.framesDirExists && fs.rmtreeFails then
    { framesWritten := 0, videoCreated := false, result := some .resource }
  else if fs.mkdirFails then
    { framesWritten := 0, videoCreated := false, result := some .resource }
  else
    match (List.range totalFrames).find? fs.saveFails with
    | some k => { framesWritten := k, videoCreated := false, result := some .resource }
    | none =>
      if fs.ffmpegFails then
        { framesWritten := totalFrames, videoCreated := false, result := some .encode }
      else
        { framesWritten := totalFrames, videoCreated := true, result := none }

/-- C9: if clearing or creating the scratch frame directory fails, the
render aborts with a resource error before any frame is composited and no
video file is created; if the first failing frame write is frame `k`, the
render aborts immediately there with a resource error, only frames
`0..k-1` having been written, and no video output file is created. -/
theorem c9_resource_error (cfg : SceneCfg) (fs : FSModel) (T : ℕ) :
    ((fs.framesDirExists = true ∧ fs.rmtreeFails = true) ∨ fs.mkdirFails = true →
      render_video_model cfg fs T =
        { framesWritten := 0, videoCreated := false, result := some .resource }) ∧
    (∀ k, (List.range T).find? fs.saveFails = some k →
      (fs.framesDirExists && fs.rmtreeFails) = false → fs.mkdirFails = false →
      render_video_model cfg fs T =
        { framesWritten := k, videoCreated := false, result := some .resource }) := by
  constructor
  · intro h
    rcases h with ⟨h1, h2⟩ | h3
    · simp [render_video_model, h1, h2]
    · by_cases hb : (fs.framesDirExists && fs.rmtreeFails) = true
      · simp [render_video_model, hb]
      · simp [render_video_model, hb, h3]
  · intro k hk hb hm
    simp [render_video_model, hb, hm, hk]

/-- Witness for C9: a failing `mkdir` aborts with zero frames and no video;
a frame write failing at frame 2 of 5 aborts with two frames written and no
video. -/
theorem c9_resource_error_witness :
    render_video_model defaultSceneCfg
        { framesDirExists := false, rmtreeFails := false, mkdirFails := true,
          saveFails := fun _ => false, ffmpegFails := false } 5 =
      { framesWritten := 0, videoCreated := false, result := some .resource } ∧
    render_video_model defaultSceneCfg
        { framesDirExists := false, rmtreeFails := false, mkdirFails := false,
          saveFails := fun k => k == 2, ffmpegFails := false } 5 =
      { framesWritten := 2, videoCreated := false, result := some .resource } :=
  ⟨(c9_resource_error defaultSceneCfg _ 5).1 (Or.inr rfl),
   (c9_resource_error defaultSceneCfg _ 5).2 2 (by decide) rfl rfl⟩

/-- C8, amended.  No configuration validation exists: a configuration whose
fade is too large relative to the scene duration (`2×fade >
scene_duration`) is neither detected nor reported at any time —
`render_video` behaves exactly as with a valid configuration, and when
every file-system and encoder operation succeeds it completes with all
frames written, the video created, and no error raised. -/
theorem c8_no_validation_amended (cfg : SceneCfg) (fs : FSModel) (T : ℕ)
    (hb : (fs.framesDirExists && fs.rmtreeFails) = false)
    (hm : fs.mkdirFails = false)
    (hs : ∀ k, fs.saveFails k = false)
    (hf : fs.ffmpegFails = false) :
    render_video_model cfg fs T =
      { framesWritten := T, videoCreated := true, result := none } := by
  have hfind : (List.range T).find? fs.saveFails = none :=
    List.find?_eq_none.mpr (fun x _ => by simp [hs x])
  simp [render_video_model, hb, hm, hfind, hf]

/-- Witness for C8: the amended theorem applied to the invalid
configuration `scene duration 2 s, fade 2 s` with an all-succeeding
oracle. -/
theorem c8_no_validation_witness :
    render_video_model
        { fps := 30, sceneDuration := 2, fadeDuration := 2, sceneCount := 3 }
        { framesDirExists := false, rmtreeFails := false, mkdirFails := false,
          saveFails := fun _ => false, ffmpegFails := false } 7 =
      { framesWritten := 7, videoCreated := true, result := none } :=
  c8_no_validation_amended _ _ 7 rfl rfl (fun _ => rfl) rfl

/-- C8 counterexample.  The configuration `fps 30, scene duration 2 s,
fade 2 s, 3 scenes` violates `2×fade ≤ scene_duration` (4 > 2), yet nothing
detects or reports it at configuration-validation time or any other time:
with every file operation succeeding, the render runs to completion over
all `total_frames` frames with no error of any kind, and `get_scene_info`
evaluates normally on the invalid configuration (frame 0 yields
`(0, 0, 0)`). -/
theorem c8_counterexample :
    ¬ (2 * (2 : ℚ) ≤ 2) ∧
    render_video_model
        { fps := 30, sceneDuration := 2, fadeDuration := 2, sceneCount := 3 }
        { framesDirExists := false, rmtreeFails := false, mkdirFails := false,
          saveFails := fun _ => false, ffmpegFails := false } total_frames =
      { framesWritten := total_frames, videoCreated := true, result := none } ∧
    get_scene_info
        { fps := 30, sceneDuration := 2, fadeDuration := 2, sceneCount := 3 } 0 =
      (0, 0, 0) := by
  refine ⟨by norm_num, ?_, ?_⟩
  · have hfind : (List.range total_frames).find? (fun _ => false) = none :=
      List.find?_eq_none.mpr (fun x _ => by simp)
    simp [render_video_model, hfind]
  · norm_num [get_scene_info]

/- ── Caption selection (video_renderer.py lines 196-198) ───────────────── -/

/-- video_renderer.py line 198:
`current_text = texts[scene_idx] if scene_idx < len(texts) else texts[-1]`,
with Python list accesses modelled by `Option`-returning lookups so that an
out-of-range access shows up as `none`.  `texts[-1]` is the last element. -/
def render_frame_caption (cfg : SceneCfg) (texts : List String) (frame : ℕ) :
    Option String :=
  let idx := scene_index cfg frame
  if idx < (texts.length : ℤ) then texts.get? idx.toNat else texts.getLast?

lemma scene_index_nonneg (cfg : SceneCfg) (frame : ℕ)
    (hfps : 0 ≤ cfg.fps) (hS : 0 < cfg.sceneDuration) (hcount : 1 ≤ cfg.sceneCount) :
    0 ≤ scene_index cfg frame := by
  rw [scene_index, get_scene_info_fst]
  refine le_min (Int.floor_nonneg.mpr ?_) (by omega)
  exact div_nonneg (div_nonneg (by positivity) hfps) hS.le

/-- C10: for a non-empty caption list and any frame, the caption lookup in
`render_frame` never goes out of bounds — it returns `some` caption at
every frame; when the derived scene index is within range the caption is
`texts[scene_index]`, and when the configured scene count exceeds the
number of captions (scene index at or past the length) it falls back to the
last caption `texts[-1]`. -/
theorem c10_caption_selection (cfg : SceneCfg) (texts : List String) (frame : ℕ)
    (hfps : 0 ≤ cfg.fps) (hS : 0 < cfg.sceneDuration) (hcount : 1 ≤ cfg.sceneCount)
    (hne : texts ≠ []) :
    (∃ c, render_frame_caption cfg texts frame = some c) ∧
    (scene_index cfg frame < (texts.length : ℤ) →
      render_frame_caption cfg texts frame =
        texts.get? (scene_index cfg frame).toNat) ∧
    ((texts.length : ℤ) ≤ scene_index cfg frame →
      render_frame_caption cfg texts frame = texts.getLast?) := by
  have hidx0 : 0 ≤ scene_index cfg frame := scene_index_nonneg cfg frame hfps hS hcount
  refine ⟨?_, ?_, ?_⟩
  · by_cases hlt : scene_index cfg frame < (texts.length : ℤ)
    · have hnat : (scene_index cfg frame).toNat < texts.length := by omega
      refine ⟨texts.get ⟨(scene_index cfg frame).toNat, hnat⟩, ?_⟩
      simp only [render_frame_caption, if_pos hlt]
      exact List.get?_eq_get hnat
    · refine ⟨texts.getLast hne, ?_⟩
      simp only [render_frame_caption, if_neg hlt]
      exact List.getLast?_eq_getLast texts hne
  · intro h
    simp only [render_frame_caption, if_pos h]
  · intro h
    simp only [render_frame_caption, if_neg (not_lt.mpr h)]

/-- Witness for C10: the selection theorem applied at the repository
configuration with the one-caption list `["a"]` at frame 0. -/
theorem c10_caption_selection_witness :
    (∃ c, render_frame_caption defaultSceneCfg ["a"] 0 = some c) ∧
    render_frame_caption defaultSceneCfg ["a"] 700 =
      (["a"] : List String).getLast? := by
  constructor
  · exact (c10_caption_selection defaultSceneCfg ["a"] 0
      (by norm_num [defaultSceneCfg, FPS])
      (by norm_num [defaultSceneCfg, SCENE_DURATION_SECONDS])
      (by norm_num [defaultSceneCfg, FACTS_PER_VIDEO])
      (by simp)).1
  · refine (c10_caption_selection defaultSceneCfg ["a"] 700
      (by norm_num [defaultSceneCfg, FPS])
      (by norm_num [defaultSceneCfg, SCENE_DURATION_SECONDS])
      (by norm_num [defaultSceneCfg, FACTS_PER_VIDEO])
      (by simp)).2.2 ?_
    norm_num [scene_index, get_scene_info, defaultSceneCfg, FPS,
      SCENE_DURATION_SECONDS, FADE_DURATION_SECONDS, FACTS_PER_VIDEO]
